import Mathlib

/-!
Verification development for the color accessibility checker
(src/server/main.py).  The numeric pipeline of the program is embedded
over exact real arithmetic; string parsing is embedded computably over
lists of characters.  The sRGB to OKLCH conversion performed by the
external coloraide library is modelled as an abstract converter record,
as the specification treats it as a supplied capability.
-/

namespace ColorChecker

/-! ### Hex parsing (hex_to_rgb and Python int(s, 16) on short slices) -/

/-- Hexadecimal digit test, matching the characters accepted by Python
int(s, 16) for a single digit: 0-9, a-f, A-F (by character code). -/
def isHexDigit (c : Char) : Bool :=
  (48 ≤ c.toNat && c.toNat ≤ 57) || (97 ≤ c.toNat && c.toNat ≤ 102)
    || (65 ≤ c.toNat && c.toNat ≤ 70)

/-- Value of a hexadecimal digit (0 on non-digits; only applied to
characters that pass isHexDigit). -/
def hexVal (c : Char) : ℤ :=
  if 48 ≤ c.toNat ∧ c.toNat ≤ 57 then (c.toNat : ℤ) - 48
  else if 97 ≤ c.toNat ∧ c.toNat ≤ 102 then (c.toNat : ℤ) - 87
  else if 65 ≤ c.toNat ∧ c.toNat ≤ 70 then (c.toNat : ℤ) - 55
  else 0

/-- Parse a nonempty run of hexadecimal digits as a base-16 integer;
fails on the empty list or on any non-digit character. -/
def parseHexDigits (cs : List Char) : Except Unit ℤ :=
  if !cs.isEmpty && cs.all isHexDigit then
    .ok (cs.foldl (fun acc c => 16 * acc + hexVal c) 0)
  else .error ()

/-- Strip leading and trailing whitespace, as Python int() does before
parsing. -/
def stripWS (cs : List Char) : List Char :=
  ((cs.dropWhile Char.isWhitespace).reverse.dropWhile Char.isWhitespace).reverse

/-- Python int(s, 16) on a short string s (at most two characters, as
produced by the two-character slices in hex_to_rgb): strip surrounding
whitespace, allow one leading sign, then require a nonempty run of hex
digits.  Failure models the ValueError raised by Python. -/
def pythonIntHex (cs : List Char) : Except Unit ℤ :=
  match stripWS cs with
  | [] => .error ()
  | c :: rest =>
    if c = '+' then parseHexDigits rest
    else if c = '-' then
      match parseHexDigits rest with
      | .ok v => .ok (-v)
      | .error e => .error e
    else parseHexDigits (c :: rest)

/-- Embedding of hex_to_rgb from src/server/main.py: strip all leading
hash characters (Python str.lstrip), then parse the slices [0:2], [2:4],
[4:6] positionally with int(slice, 16).  The first failing slice aborts
with an error (Python raises ValueError). -/
def hex_to_rgb (s : String) : Except Unit (ℤ × ℤ × ℤ) := do
  let t := s.data.dropWhile (fun c => c == '#')
  let r ← pythonIntHex (t.take 2)
  let g ← pythonIntHex ((t.drop 2).take 2)
  let b ← pythonIntHex ((t.drop 4).take 2)
  .ok (r, g, b)

/-! ### Relative luminance and contrast ratio -/

/-- Embedding of calculate_luminance from src/server/main.py: normalize
each channel to [0,1], apply the WCAG piecewise gamma linearization per
channel, and combine with the fixed weights. -/
noncomputable def calculate_luminance (rgb : ℤ × ℤ × ℤ) : ℝ :=
  let r : ℝ := (rgb.1 : ℝ) / 255.0
  let g : ℝ := (rgb.2.1 : ℝ) / 255.0
  let b : ℝ := (rgb.2.2 : ℝ) / 255.0
  let r := if r ≤ 0.03928 then r / 12.92 else ((r + 0.055) / 1.055) ^ (2.4 : ℝ)
  let g := if g ≤ 0.03928 then g / 12.92 else ((g + 0.055) / 1.055) ^ (2.4 : ℝ)
  let b := if b ≤ 0.03928 then b / 12.92 else ((b + 0.055) / 1.055) ^ (2.4 : ℝ)
  0.2126 * r + 0.7152 * g + 0.0722 * b

/-- Embedding of calculate_contrast_ratio from src/server/main.py:
parse both colors, compute their luminances, and return
(lighter + 0.05) / (darker + 0.05).  A parse failure propagates. -/
noncomputable def calculate_contrast_ratio (color1 color2 : String) : Except Unit ℝ := do
  let rgb1 ← hex_to_rgb color1
  let rgb2 ← hex_to_rgb color2
  let lum1 := calculate_luminance rgb1
  let lum2 := calculate_luminance rgb2
  .ok ((max lum1 lum2 + 0.05) / (min lum1 lum2 + 0.05))

/-! ### WCAG compliance evaluation -/

/-- Result record of evaluate_wcag, one boolean per WCAG tier, in the
order of the source dictionary. -/
structure WcagFlags where
  passes_aa_normal : Bool
  passes_aa_large : Bool
  passes_aaa_normal : Bool
  passes_aaa_large : Bool
  deriving Repr, DecidableEq

/-- Embedding of evaluate_wcag from src/server/main.py: four fixed
threshold tests on the ratio. -/
noncomputable def evaluate_wcag (ratio : ℝ) : WcagFlags :=
  { passes_aa_normal := decide (4.5 ≤ ratio)
    passes_aa_large := decide (3.0 ≤ ratio)
    passes_aaa_normal := decide (7.0 ≤ ratio)
    passes_aaa_large := decide (4.5 ≤ ratio) }

/-! ### Rounding to two decimals (Python round(x, 2)) -/

/-- Round to the nearest integer, ties to the even integer, as Python's
round does. -/
noncomputable def roundHalfEven (x : ℝ) : ℤ :=
  let f := ⌊x⌋
  if x - f < 1 / 2 then f
  else if 1 / 2 < x - f then f + 1
  else if Even f then f else f + 1

/-- Python round(x, 2): round to the nearest multiple of one hundredth,
ties to even. -/
noncomputable def round2 (x : ℝ) : ℝ := (roundHalfEven (100 * x) : ℝ) / 100

/-! ### OKLCH remediation search -/

/-- OKLCH coordinates of a color: lightness, chroma, hue. -/
structure Oklch where
  lightness : ℝ
  chroma : ℝ
  hue : ℝ

/-- Abstract model of the coloraide conversion capability used by
generate_oklch_suggestions: converting a color string to OKLCH can fail
(Python raises, the source catches); converting adjusted OKLCH
coordinates back to an sRGB hex string always yields a string. -/
structure OklchConverter where
  toOklch : String → Option Oklch
  fromOklch : Oklch → String

/-- Lightness adjustment for the darkening probes in the source:
max(0, lightness - 0.15). -/
noncomputable def darken_lightness (l : ℝ) : ℝ := max 0 (l - 0.15)

/-- Lightness adjustment for the lightening probes in the source:
min(1, lightness + 0.15). -/
noncomputable def lighten_lightness (l : ℝ) : ℝ := min 1 (l + 0.15)

/-- One remediation suggestion, with the fields of the dictionaries
built by generate_oklch_suggestions. -/
structure Suggestion where
  type : String
  description : String
  new_contrast_ratio : ℝ
  preview_hex_fg : String
  preview_hex_bg : String

/-- Insert a suggestion into a list sorted by new_contrast_ratio
descending, keeping it before later elements with an equal key.
Together with sortSuggestions this models the stable descending sort
performed by Python list.sort(key=..., reverse=True). -/
noncomputable def insertDesc (x : Suggestion) : List Suggestion → List Suggestion
  | [] => [x]
  | y :: ys =>
    if y.new_contrast_ratio ≤ x.new_contrast_ratio then x :: y :: ys
    else y :: insertDesc x ys

/-- Stable sort of suggestions by new_contrast_ratio descending,
modelling suggestions.sort(key=lambda x: x[new_contrast_ratio],
reverse=True). -/
noncomputable def sortSuggestions : List Suggestion → List Suggestion
  | [] => []
  | x :: xs => insertDesc x (sortSuggestions xs)

/-- Lift the optional result of the converter into the Except monad
modelling the try block of the source. -/
def ofOption {α : Type} : Option α → Except Unit α
  | some a => .ok a
  | none => .error ()

/-- Body of the try block of generate_oklch_suggestions: convert both
colors to OKLCH, probe the four fixed adjustments in source order
(darken background, lighten background, darken foreground, lighten
foreground), keep each candidate only when its recomputed ratio strictly
exceeds the current ratio, then sort descending and keep the first two.
Any failure inside makes the whole body fail (the source catches the
exception and returns an empty list). -/
noncomputable def suggestionBody (conv : OklchConverter) (fg_hex bg_hex : String)
    (current_ratio : ℝ) : Except Unit (List Suggestion) := do
  let fg_oklch ← ofOption (conv.toOklch fg_hex)
  let bg_oklch ← ofOption (conv.toOklch bg_hex)
  let new_bg_hex1 := conv.fromOklch { bg_oklch with lightness := darken_lightness bg_oklch.lightness }
  let new_ratio1 ← calculate_contrast_ratio fg_hex new_bg_hex1
  let s1 : List Suggestion :=
    if current_ratio < new_ratio1 then
      [{ type := "darken_bg", description := "Oscurecer el fondo",
         new_contrast_ratio := round2 new_ratio1,
         preview_hex_fg := fg_hex, preview_hex_bg := new_bg_hex1 }]
    else []
  let new_bg_hex2 := conv.fromOklch { bg_oklch with lightness := lighten_lightness bg_oklch.lightness }
  let new_ratio2 ← calculate_contrast_ratio fg_hex new_bg_hex2
  let s2 : List Suggestion :=
    if current_ratio < new_ratio2 then
      [{ type := "lighten_bg", description := "Aclarar el fondo",
         new_contrast_ratio := round2 new_ratio2,
         preview_hex_fg := fg_hex, preview_hex_bg := new_bg_hex2 }]
    else []
  let new_fg_hex3 := conv.fromOklch { fg_oklch with lightness := darken_lightness fg_oklch.lightness }
  let new_ratio3 ← calculate_contrast_ratio new_fg_hex3 bg_hex
  let s3 : List Suggestion :=
    if current_ratio < new_ratio3 then
      [{ type := "darken_fg", description := "Oscurecer el texto",
         new_contrast_ratio := round2 new_ratio3,
         preview_hex_fg := new_fg_hex3, preview_hex_bg := bg_hex }]
    else []
  let new_fg_hex4 := conv.fromOklch { fg_oklch with lightness := lighten_lightness fg_oklch.lightness }
  let new_ratio4 ← calculate_contrast_ratio new_fg_hex4 bg_hex
  let s4 : List Suggestion :=
    if current_ratio < new_ratio4 then
      [{ type := "lighten_fg", description := "Aclarar el texto",
         new_contrast_ratio := round2 new_ratio4,
         preview_hex_fg := new_fg_hex4, preview_hex_bg := bg_hex }]
    else []
  .ok ((sortSuggestions (s1 ++ s2 ++ s3 ++ s4)).take 2)

/-- Embedding of generate_oklch_suggestions from src/server/main.py:
no suggestions when the ratio already reaches 4.5; otherwise run the
probe body, and degrade to no suggestions when it fails (the except
branch of the source). -/
noncomputable def generate_oklch_suggestions (conv : OklchConverter)
    (fg_hex bg_hex : String) (current_ratio : ℝ) : List Suggestion :=
  if 4.5 ≤ current_ratio then []
  else
    match suggestionBody conv fg_hex bg_hex current_ratio with
    | .ok l => l
    | .error _ => []

/-! ### Batch processing (check_color_accessibility) -/

/-- One input color pair, with the fields required by the tool schema. -/
structure ColorPair where
  foreground : String
  background : String
  element : String

/-- Per-pair result dictionary built by check_color_accessibility. -/
structure PairResult where
  text_sample : String
  foreground : String
  background : String
  ratio : ℝ
  passes_aa_normal : Bool
  passes_aa_large : Bool
  passes_aaa_normal : Bool
  passes_aaa_large : Bool
  suggestions : List Suggestion

/-- Output dictionary of check_color_accessibility. -/
structure CheckOutput where
  total_pairs : ℕ
  passed_pairs : ℕ
  failed_pairs : ℕ
  color_pairs : List PairResult

/-- The loop body of check_color_accessibility applied to the list of
pairs in order: each pair is parsed and scored; any parse failure
propagates immediately (the source has no per-item exception handling,
so the Python exception aborts the whole loop). -/
noncomputable def processPairs (conv : OklchConverter) :
    List ColorPair → Except Unit (List PairResult)
  | [] => .ok []
  | pair :: rest => do
    let ratio ← calculate_contrast_ratio pair.foreground pair.background
    let wcag_results := evaluate_wcag ratio
    let suggestions := generate_oklch_suggestions conv pair.foreground pair.background ratio
    let others ← processPairs conv rest
    .ok ({ text_sample := pair.element
           foreground := pair.foreground
           background := pair.background
           ratio := round2 ratio
           passes_aa_normal := wcag_results.passes_aa_normal
           passes_aa_large := wcag_results.passes_aa_large
           passes_aaa_normal := wcag_results.passes_aaa_normal
           passes_aaa_large := wcag_results.passes_aaa_large
           suggestions := suggestions } :: others)

/-- Embedding of check_color_accessibility from src/server/main.py.
The source accumulates passed_count and failed_count inside the loop,
incrementing exactly one of them per pair according to
passes_aa_normal; that accumulation equals counting the corresponding
results, which is how the counters are expressed here. -/
noncomputable def check_color_accessibility (conv : OklchConverter)
    (color_pairs : List ColorPair) : Except Unit CheckOutput := do
  let results ← processPairs conv color_pairs
  .ok { total_pairs := color_pairs.length
        passed_pairs := results.countP (fun r => r.passes_aa_normal)
        failed_pairs := results.countP (fun r => !r.passes_aa_normal)
        color_pairs := results }

/-! ### Validity predicates on input strings -/

/-- A parse attempt succeeded (the Except value carries a result). -/
def parseOk (s : String) : Bool :=
  match hex_to_rgb s with
  | .ok _ => true
  | .error _ => false

/-- Both colors of a pair parse. -/
def pairOk (p : ColorPair) : Bool := parseOk p.foreground && parseOk p.background

/-- Every pair of the batch parses. -/
def pairsOk (l : List ColorPair) : Bool := l.all pairOk

/-- A color string matching the specification's input contract: an
optional single leading hash sign followed by exactly six hexadecimal
digits. -/
def validSixHex (s : String) : Bool :=
  let t := if s.data.head? = some '#' then s.data.tail else s.data
  t.length == 6 && t.all isHexDigit

/-! ### Specification-side definitions, written from the words of the
specification, to be compared with the source embeddings -/

/-- WCAG gamma linearization exactly as the specification words it:
c / 12.92 when c is at most 0.03928, otherwise
((c + 0.055) / 1.055) to the power 2.4. -/
noncomputable def wcag_gamma_spec (c : ℝ) : ℝ :=
  if c ≤ 0.03928 then c / 12.92 else ((c + 0.055) / 1.055) ^ (2.4 : ℝ)

/-- Relative luminance as the specification words it: normalize each
channel to [0,1], linearize per channel, combine with the fixed
weighted sum. -/
noncomputable def relative_luminance_spec (rgb : ℤ × ℤ × ℤ) : ℝ :=
  0.2126 * wcag_gamma_spec ((rgb.1 : ℝ) / 255)
    + 0.7152 * wcag_gamma_spec ((rgb.2.1 : ℝ) / 255)
    + 0.0722 * wcag_gamma_spec ((rgb.2.2 : ℝ) / 255)

/-- The four Policy B probe candidates, each paired with its recomputed
(unrounded) ratio: lighten and darken the background, lighten and
darken the foreground, with the fixed lightness delta of 0.15 clamped
to [0,1].  A conversion or recomputation failure fails the probe set
(the specification treats this as ConversionFailure). -/
noncomputable def policyB_probes (conv : OklchConverter) (fg_hex bg_hex : String) :
    Except Unit (List (ℝ × Suggestion)) := do
  let fg_oklch ← ofOption (conv.toOklch fg_hex)
  let bg_oklch ← ofOption (conv.toOklch bg_hex)
  let bg_dark := conv.fromOklch { bg_oklch with lightness := darken_lightness bg_oklch.lightness }
  let r1 ← calculate_contrast_ratio fg_hex bg_dark
  let bg_light := conv.fromOklch { bg_oklch with lightness := lighten_lightness bg_oklch.lightness }
  let r2 ← calculate_contrast_ratio fg_hex bg_light
  let fg_dark := conv.fromOklch { fg_oklch with lightness := darken_lightness fg_oklch.lightness }
  let r3 ← calculate_contrast_ratio fg_dark bg_hex
  let fg_light := conv.fromOklch { fg_oklch with lightness := lighten_lightness fg_oklch.lightness }
  let r4 ← calculate_contrast_ratio fg_light bg_hex
  .ok [ (r1, { type := "darken_bg", description := "Oscurecer el fondo",
               new_contrast_ratio := round2 r1,
               preview_hex_fg := fg_hex, preview_hex_bg := bg_dark }),
        (r2, { type := "lighten_bg", description := "Aclarar el fondo",
               new_contrast_ratio := round2 r2,
               preview_hex_fg := fg_hex, preview_hex_bg := bg_light }),
        (r3, { type := "darken_fg", description := "Oscurecer el texto",
               new_contrast_ratio := round2 r3,
               preview_hex_fg := fg_dark, preview_hex_bg := bg_hex }),
        (r4, { type := "lighten_fg", description := "Aclarar el texto",
               new_contrast_ratio := round2 r4,
               preview_hex_fg := fg_light, preview_hex_bg := bg_hex }) ]

/-- Policy B as the specification words it: for a pair that already
reaches 4.5 return nothing; otherwise probe the four fixed adjustments,
keep a candidate only when its recomputed ratio strictly improves on
the original ratio, rank the survivors by their reported resulting
ratio descending, and return at most the top two.  When the converter
fails the search degrades to no suggestions. -/
noncomputable def policyB_spec (conv : OklchConverter) (fg_hex bg_hex : String)
    (current_ratio : ℝ) : List Suggestion :=
  if 4.5 ≤ current_ratio then []
  else
    match policyB_probes conv fg_hex bg_hex with
    | .error _ => []
    | .ok probes =>
      (sortSuggestions ((probes.filter (fun c => decide (current_ratio < c.1))).map
        (fun c => c.2))).take 2

/-- Position of a suggestion's probe in the fixed source probe order:
darken background, lighten background, darken foreground, lighten
foreground. -/
def probeIdx (s : Suggestion) : ℕ :=
  if s.type = "darken_bg" then 0
  else if s.type = "lighten_bg" then 1
  else if s.type = "darken_fg" then 2
  else if s.type = "lighten_fg" then 3
  else 4

/-- A concrete converter used to instantiate theorems with hypotheses:
it sends every color to a fixed mid-lightness OKLCH point and renders
every OKLCH point as mid grey. -/
noncomputable def constConv : OklchConverter :=
  { toOklch := fun _ => some { lightness := 0.5, chroma := 0, hue := 0 }
    fromOklch := fun _ => "#808080" }

/-! ### Helper lemmas: characters and parsing -/

lemma hexVal_bounds (c : Char) : 0 ≤ hexVal c ∧ hexVal c ≤ 15 := by
  unfold hexVal
  split_ifs <;> omega

lemma hex_toNat_ge {c : Char} (h : isHexDigit c = true) : 48 ≤ c.toNat := by
  unfold isHexDigit at h
  simp only [Bool.or_eq_true, Bool.and_eq_true, decide_eq_true_eq] at h
  omega

lemma ws_false_of_ge {c : Char} (h : 48 ≤ c.toNat) : c.isWhitespace = false := by
  simp only [Char.isWhitespace, Bool.or_eq_false_iff]
  refine ⟨⟨⟨?_, ?_⟩, ?_⟩, ?_⟩ <;>
    exact decide_eq_false (by intro hc; subst hc; exact absurd h (by decide))

lemma hash_false_of_ge {c : Char} (h : 48 ≤ c.toNat) : (c == '#') = false := by
  rw [beq_eq_false_iff_ne]
  intro hc; subst hc; exact absurd h (by decide)

lemma ne_plus_of_ge {c : Char} (h : 48 ≤ c.toNat) : ¬ (c = '+') := by
  intro hc; subst hc; exact absurd h (by decide)

lemma ne_minus_of_ge {c : Char} (h : 48 ≤ c.toNat) : ¬ (c = '-') := by
  intro hc; subst hc; exact absurd h (by decide)

lemma dropWhile_all_false {p : Char → Bool} {l : List Char}
    (h : ∀ x ∈ l, p x = false) : l.dropWhile p = l := by
  cases l with
  | nil => rfl
  | cons c t => simp [List.dropWhile_cons, h c (List.mem_cons_self c t)]

lemma stripWS_hex {cs : List Char} (h : cs.all isHexDigit = true) : stripWS cs = cs := by
  rw [List.all_eq_true] at h
  unfold stripWS
  rw [dropWhile_all_false (fun x hx => ws_false_of_ge (hex_toNat_ge (h x hx)))]
  rw [dropWhile_all_false (fun x hx =>
    ws_false_of_ge (hex_toNat_ge (h x (List.mem_reverse.mp hx))))]
  exact List.reverse_reverse cs

lemma parseHexDigits_ok {cs : List Char} (hne : cs ≠ []) (h : cs.all isHexDigit = true) :
    parseHexDigits cs = .ok (cs.foldl (fun acc c => 16 * acc + hexVal c) 0) := by
  unfold parseHexDigits
  rw [if_pos]
  simp [h, List.isEmpty_iff, hne]

lemma pythonIntHex_hex {cs : List Char} (hne : cs ≠ []) (h : cs.all isHexDigit = true) :
    pythonIntHex cs = parseHexDigits cs := by
  unfold pythonIntHex
  rw [stripWS_hex h]
  cases cs with
  | nil => exact absurd rfl hne
  | cons c t =>
    have hc : isHexDigit c = true := by
      rw [List.all_eq_true] at h
      exact h c (List.mem_cons_self c t)
    simp only [if_neg (ne_plus_of_ge (hex_toNat_ge hc)),
      if_neg (ne_minus_of_ge (hex_toNat_ge hc))]

lemma pythonIntHex_bounds (cs : List Char) (hne : cs ≠ []) (hlen : cs.length ≤ 2)
    (h : cs.all isHexDigit = true) :
    ∃ v, pythonIntHex cs = .ok v ∧ 0 ≤ v ∧ v ≤ 255 := by
  rw [pythonIntHex_hex hne h, parseHexDigits_ok hne h]
  match cs with
  | [a] =>
    refine ⟨_, rfl, ?_⟩
    have := hexVal_bounds a
    simp only [List.foldl]
    omega
  | [a, b] =>
    refine ⟨_, rfl, ?_⟩
    have := hexVal_bounds a
    have := hexVal_bounds b
    simp only [List.foldl]
    omega

lemma take_all {p : Char → Bool} {l : List Char} {n : ℕ} (h : l.all p = true) :
    (l.take n).all p = true := by
  rw [List.all_eq_true] at h ⊢
  exact fun x hx => h x (List.take_subset n l hx)

lemma drop_all {p : Char → Bool} {l : List Char} {n : ℕ} (h : l.all p = true) :
    (l.drop n).all p = true := by
  rw [List.all_eq_true] at h ⊢
  exact fun x hx => h x (List.drop_subset n l hx)

lemma hex_to_rgb_of_hexlist {s : String} {ds : List Char}
    (hdata : s.data.dropWhile (fun c => c == '#') = ds)
    (hall : ds.all isHexDigit = true) (hlen : 5 ≤ ds.length) :
    ∃ r g b, hex_to_rgb s = .ok (r, g, b) ∧
      0 ≤ r ∧ r ≤ 255 ∧ 0 ≤ g ∧ g ≤ 255 ∧ 0 ≤ b ∧ b ≤ 255 := by
  have h1 := pythonIntHex_bounds (ds.take 2)
    (by rw [← List.length_pos_iff_ne_nil]; simp [List.length_take]; omega)
    (by simp [List.length_take]) (take_all hall)
  have h2 := pythonIntHex_bounds ((ds.drop 2).take 2)
    (by rw [← List.length_pos_iff_ne_nil]; simp [List.length_take, List.length_drop]; omega)
    (by simp [List.length_take]) (take_all (drop_all hall))
  have h3 := pythonIntHex_bounds ((ds.drop 4).take 2)
    (by rw [← List.length_pos_iff_ne_nil]; simp [List.length_take, List.length_drop]; omega)
    (by simp [List.length_take]) (take_all (drop_all hall))
  obtain ⟨v1, he1, hb1⟩ := h1
  obtain ⟨v2, he2, hb2⟩ := h2
  obtain ⟨v3, he3, hb3⟩ := h3
  refine ⟨v1, v2, v3, ?_, hb1.1, hb1.2, hb2.1, hb2.2, hb3.1, hb3.2⟩
  unfold hex_to_rgb
  rw [hdata]
  simp only [he1, he2, he3]
  rfl

lemma validSixHex_hexlist {s : String} (h : validSixHex s = true) :
    ∃ ds, s.data.dropWhile (fun c => c == '#') = ds ∧
      ds.all isHexDigit = true ∧ ds.length = 6 := by
  unfold validSixHex at h
  simp only [Bool.and_eq_true, beq_iff_eq] at h
  by_cases hh : s.data.head? = some '#'
  · rw [if_pos hh] at h
    obtain ⟨t, ht⟩ : ∃ t, s.data = '#' :: t := by
      cases hd : s.data with
      | nil => rw [hd] at hh; simp at hh
      | cons c t => rw [hd] at hh; simp at hh; exact ⟨t, by rw [hh]⟩
    rw [ht] at h ⊢
    simp only [List.tail_cons] at h
    refine ⟨t, ?_, h.2, h.1⟩
    rw [List.dropWhile_cons]
    simp only [beq_self_eq_true, if_true]
    apply dropWhile_all_false
    rw [List.all_eq_true] at h
    exact fun x hx => hash_false_of_ge (hex_toNat_ge (h.2 x hx))
  · rw [if_neg hh] at h
    refine ⟨s.data, ?_, h.2, h.1⟩
    apply dropWhile_all_false
    rw [List.all_eq_true] at h
    exact fun x hx => hash_false_of_ge (hex_toNat_ge (h.2 x hx))

lemma hex_to_rgb_of_valid {s : String} (h : validSixHex s = true) :
    ∃ r g b, hex_to_rgb s = .ok (r, g, b) ∧
      0 ≤ r ∧ r ≤ 255 ∧ 0 ≤ g ∧ g ≤ 255 ∧ 0 ≤ b ∧ b ≤ 255 := by
  obtain ⟨ds, hdata, hall, hlen⟩ := validSixHex_hexlist h
  exact hex_to_rgb_of_hexlist hdata hall (by omega)

/-! ### Helper lemmas: luminance and contrast -/

lemma gamma_bounds {c : ℝ} (h0 : 0 ≤ c) (h1 : c ≤ 1) :
    0 ≤ (if c ≤ 0.03928 then c / 12.92 else ((c + 0.055) / 1.055) ^ (2.4 : ℝ)) ∧
      (if c ≤ 0.03928 then c / 12.92 else ((c + 0.055) / 1.055) ^ (2.4 : ℝ)) ≤ 1 := by
  split_ifs with hc
  · constructor
    · exact div_nonneg h0 (by norm_num)
    · rw [div_le_one (by norm_num)]; linarith
  · have hb0 : (0 : ℝ) ≤ (c + 0.055) / 1.055 := div_nonneg (by linarith) (by norm_num)
    have hb1 : (c + 0.055) / 1.055 ≤ 1 := by rw [div_le_one (by norm_num)]; linarith
    exact ⟨Real.rpow_nonneg hb0 _, Real.rpow_le_one hb0 hb1 (by norm_num)⟩

lemma channel_bounds {r : ℤ} (hr0 : 0 ≤ r) (hr1 : r ≤ 255) :
    (0:ℝ) ≤ (r:ℝ) / 255.0 ∧ (r:ℝ) / 255.0 ≤ 1 := by
  constructor
  · apply div_nonneg _ (by norm_num); exact_mod_cast hr0
  · rw [div_le_one (by norm_num)]
    have : (r:ℝ) ≤ 255 := by exact_mod_cast hr1
    linarith

lemma luminance_bounds {r g b : ℤ} (hr0 : 0 ≤ r) (hr1 : r ≤ 255) (hg0 : 0 ≤ g)
    (hg1 : g ≤ 255) (hb0 : 0 ≤ b) (hb1 : b ≤ 255) :
    0 ≤ calculate_luminance (r, g, b) ∧ calculate_luminance (r, g, b) ≤ 1 := by
  have cr := channel_bounds hr0 hr1
  have cg := channel_bounds hg0 hg1
  have cb := channel_bounds hb0 hb1
  have gr := gamma_bounds cr.1 cr.2
  have gg := gamma_bounds cg.1 cg.2
  have gb := gamma_bounds cb.1 cb.2
  simp only [calculate_luminance]
  constructor <;> nlinarith [gr.1, gr.2, gg.1, gg.2, gb.1, gb.2]

lemma lum_white : calculate_luminance (255, 255, 255) = 1 := by
  simp only [calculate_luminance]
  norm_num

lemma lum_black : calculate_luminance (0, 0, 0) = 0 := by
  simp only [calculate_luminance]
  norm_num

lemma ratio_bounds {l1 l2 : ℝ} (h10 : 0 ≤ l1) (h11 : l1 ≤ 1) (h20 : 0 ≤ l2) (h21 : l2 ≤ 1) :
    1 ≤ (max l1 l2 + 0.05) / (min l1 l2 + 0.05) ∧
      (max l1 l2 + 0.05) / (min l1 l2 + 0.05) ≤ 21 := by
  have hminpos : (0:ℝ) < min l1 l2 + 0.05 := by
    have := le_min h10 h20; linarith
  constructor
  · rw [le_div_iff₀ hminpos]
    have := min_le_max (a := l1) (b := l2)
    linarith
  · rw [div_le_iff₀ hminpos]
    have h1 : max l1 l2 ≤ 1 := max_le h11 h21
    have h2 : 0 ≤ min l1 l2 := le_min h10 h20
    nlinarith

lemma contrast_of_parses {c1 c2 : String} {t1 t2 : ℤ × ℤ × ℤ}
    (h1 : hex_to_rgb c1 = .ok t1) (h2 : hex_to_rgb c2 = .ok t2) :
    calculate_contrast_ratio c1 c2 =
      .ok ((max (calculate_luminance t1) (calculate_luminance t2) + 0.05) /
        (min (calculate_luminance t1) (calculate_luminance t2) + 0.05)) := by
  unfold calculate_contrast_ratio
  simp only [h1, h2]
  rfl

lemma contrast_error_left {c1 c2 : String} (h1 : hex_to_rgb c1 = .error ()) :
    calculate_contrast_ratio c1 c2 = .error () := by
  unfold calculate_contrast_ratio
  simp only [h1]
  rfl

lemma contrast_error_right {c1 c2 : String} {t1 : ℤ × ℤ × ℤ}
    (h1 : hex_to_rgb c1 = .ok t1) (h2 : hex_to_rgb c2 = .error ()) :
    calculate_contrast_ratio c1 c2 = .error () := by
  unfold calculate_contrast_ratio
  simp only [h1, h2]
  rfl

lemma except_unit_cases {α : Type} (e : Except Unit α) : e = .error () ∨ ∃ v, e = .ok v := by
  cases e with
  | error u => cases u; exact Or.inl rfl
  | ok v => exact Or.inr ⟨v, rfl⟩

lemma contrast_ok_of_valid {c1 c2 : String} (h1 : validSixHex c1 = true)
    (h2 : validSixHex c2 = true) :
    ∃ r, calculate_contrast_ratio c1 c2 = .ok r ∧ 1 ≤ r ∧ r ≤ 21 := by
  obtain ⟨r1, g1, b1, he1, hb1⟩ := hex_to_rgb_of_valid h1
  obtain ⟨r2, g2, b2, he2, hb2⟩ := hex_to_rgb_of_valid h2
  obtain ⟨hl10, hl11⟩ := luminance_bounds hb1.1 hb1.2.1 hb1.2.2.1 hb1.2.2.2.1
    hb1.2.2.2.2.1 hb1.2.2.2.2.2
  obtain ⟨hl20, hl21⟩ := luminance_bounds hb2.1 hb2.2.1 hb2.2.2.1 hb2.2.2.2.1
    hb2.2.2.2.2.1 hb2.2.2.2.2.2
  refine ⟨_, contrast_of_parses he1 he2, ?_⟩
  exact ratio_bounds hl10 hl11 hl20 hl21

/-! ### Helper lemmas: Except bind and hash stripping -/

lemma bind_ok {α β : Type} (a : α) (f : α → Except Unit β) :
    (Except.ok a : Except Unit α) >>= f = f a := rfl

lemma bind_err {α β : Type} (f : α → Except Unit β) :
    (Except.error () : Except Unit α) >>= f = .error () := rfl

lemma drop_hash_hex {ds : List Char} (h : ds.all isHexDigit = true) :
    ('#' :: ds).dropWhile (fun c => c == '#') = ds := by
  rw [List.dropWhile_cons]
  simp only [beq_self_eq_true, if_true]
  apply dropWhile_all_false
  rw [List.all_eq_true] at h
  exact fun x hx => hash_false_of_ge (hex_toNat_ge (h x hx))

lemma hex_to_rgb_hash_hex {ds : List Char} (h : ds.all isHexDigit = true) :
    hex_to_rgb (String.mk ('#' :: ds)) = (do
      let r ← pythonIntHex (ds.take 2)
      let g ← pythonIntHex ((ds.drop 2).take 2)
      let b ← pythonIntHex ((ds.drop 4).take 2)
      Except.ok (r, g, b)) := by
  unfold hex_to_rgb
  show (do
    let t := ('#' :: ds).dropWhile (fun c => c == '#')
    let r ← pythonIntHex (t.take 2)
    let g ← pythonIntHex ((t.drop 2).take 2)
    let b ← pythonIntHex ((t.drop 4).take 2)
    Except.ok (r, g, b)) = _
  rw [drop_hash_hex h]

/-! ### Claim C2 -/

/-- C2 counterexample: the claim demands that a string with more than
six hex digits after the hash fails, but hex_to_rgb parses the
seven-digit string 1234567 successfully, ignoring the seventh digit. -/
theorem claim_C2_cex :
    hex_to_rgb "#1234567" ≠ .error () ∧ hex_to_rgb "#1234567" = .ok (18, 52, 86) := by
  constructor
  · intro hcontra
    rw [show hex_to_rgb "#1234567" = .ok (18, 52, 86) from rfl] at hcontra
    exact Except.noConfusion hcontra
  · rfl

/-- C2 amended: on a string of hex digits after a leading hash,
hex_to_rgb succeeds exactly when at least five digits are present (the
three two-character slices at positions 0-2, 2-4, 4-6 must each parse),
and digits beyond the sixth are ignored rather than rejected. -/
theorem claim_C2 {ds : List Char} (h : ds.all isHexDigit = true) :
    ((∃ v, hex_to_rgb (String.mk ('#' :: ds)) = .ok v) ↔ 5 ≤ ds.length) ∧
    (6 ≤ ds.length →
      hex_to_rgb (String.mk ('#' :: ds)) = hex_to_rgb (String.mk ('#' :: ds.take 6))) := by
  constructor
  · constructor
    · rintro ⟨v, hv⟩
      by_contra hlen
      push_neg at hlen
      have h3 : (ds.drop 4).take 2 = [] := by
        rw [List.drop_eq_nil_of_le (by omega)]; rfl
      rw [hex_to_rgb_hash_hex h, h3] at hv
      rcases except_unit_cases (pythonIntHex (ds.take 2)) with h1 | ⟨v1, h1⟩ <;>
        rcases except_unit_cases (pythonIntHex ((ds.drop 2).take 2)) with h2 | ⟨v2, h2⟩ <;>
          rw [h1] at hv <;>
          simp only [bind_ok, bind_err] at hv <;>
          try exact Except.noConfusion hv
      · rw [h2] at hv
        simp only [bind_ok, bind_err,
          show pythonIntHex [] = (Except.error () : Except Unit ℤ) from rfl] at hv
        exact Except.noConfusion hv
      · rw [h2] at hv
        simp only [bind_ok, bind_err,
          show pythonIntHex [] = (Except.error () : Except Unit ℤ) from rfl] at hv
        exact Except.noConfusion hv
    · intro hlen
      have h1 := pythonIntHex_bounds (ds.take 2)
        (by rw [← List.length_pos_iff_ne_nil]; simp [List.length_take]; omega)
        (by simp [List.length_take]) (take_all h)
      have h2 := pythonIntHex_bounds ((ds.drop 2).take 2)
        (by rw [← List.length_pos_iff_ne_nil]; simp [List.length_take, List.length_drop]; omega)
        (by simp [List.length_take]) (take_all (drop_all h))
      have h3 := pythonIntHex_bounds ((ds.drop 4).take 2)
        (by rw [← List.length_pos_iff_ne_nil]; simp [List.length_take, List.length_drop]; omega)
        (by simp [List.length_take]) (take_all (drop_all h))
      obtain ⟨v1, he1, -⟩ := h1
      obtain ⟨v2, he2, -⟩ := h2
      obtain ⟨v3, he3, -⟩ := h3
      refine ⟨(v1, v2, v3), ?_⟩
      rw [hex_to_rgb_hash_hex h]
      rw [he1, he2, he3]
      rfl
  · intro hlen
    rw [hex_to_rgb_hash_hex h, hex_to_rgb_hash_hex (take_all h)]
    rw [List.take_take]
    rw [show (6 : ℕ) = 2 + 4 from rfl, List.drop_take, List.take_take]
    rw [show (2 : ℕ) + 4 = 4 + 2 by rfl, List.drop_take, List.take_take]
    norm_num

/-- C2 witness: the amended claim instantiated on the eight hex digits
12345678: parsing succeeds and agrees with parsing the first six. -/
theorem claim_C2_witness :
    (['1', '2', '3', '4', '5', '6', '7', '8'].all isHexDigit = true) ∧
    (∃ v, hex_to_rgb (String.mk ('#' :: ['1', '2', '3', '4', '5', '6', '7', '8'])) = .ok v) ∧
    hex_to_rgb (String.mk ('#' :: ['1', '2', '3', '4', '5', '6', '7', '8'])) =
      hex_to_rgb (String.mk ('#' :: ['1', '2', '3', '4', '5', '6', '7', '8'].take 6)) :=
  ⟨by decide,
    (claim_C2 (by decide)).1.mpr (by norm_num),
    (claim_C2 (by decide)).2 (by norm_num)⟩

/-! ### Claim C4 -/

/-- C4: white against black gives exactly 21, and for valid six-digit
colors every contrast ratio lies in [1, 21] while every relative
luminance lies in [0, 1]. -/
theorem claim_C4 :
    calculate_contrast_ratio "#FFFFFF" "#000000" = .ok 21 ∧
    (∀ c1 c2 : String, validSixHex c1 = true → validSixHex c2 = true →
      ∃ r, calculate_contrast_ratio c1 c2 = .ok r ∧ 1 ≤ r ∧ r ≤ 21) ∧
    (∀ c : String, validSixHex c = true →
      ∃ rgb, hex_to_rgb c = .ok rgb ∧
        0 ≤ calculate_luminance rgb ∧ calculate_luminance rgb ≤ 1) := by
  refine ⟨?_, fun c1 c2 h1 h2 => contrast_ok_of_valid h1 h2, ?_⟩
  · rw [contrast_of_parses (show hex_to_rgb "#FFFFFF" = .ok (255, 255, 255) from rfl)
      (show hex_to_rgb "#000000" = .ok (0, 0, 0) from rfl)]
    rw [lum_white, lum_black]
    norm_num
  · intro c hc
    obtain ⟨r, g, b, he, hb⟩ := hex_to_rgb_of_valid hc
    exact ⟨(r, g, b), he, luminance_bounds hb.1 hb.2.1 hb.2.2.1 hb.2.2.2.1
      hb.2.2.2.2.1 hb.2.2.2.2.2⟩

/-- C4 witness: the ratio bound and the luminance bound instantiated on
the valid pair 0066CC and F5F5F5. -/
theorem claim_C4_witness :
    (validSixHex "#0066CC" = true) ∧ (validSixHex "#F5F5F5" = true) ∧
    (∃ r, calculate_contrast_ratio "#0066CC" "#F5F5F5" = .ok r ∧ 1 ≤ r ∧ r ≤ 21) ∧
    (∃ rgb, hex_to_rgb "#0066CC" = .ok rgb ∧
      0 ≤ calculate_luminance rgb ∧ calculate_luminance rgb ≤ 1) :=
  ⟨rfl, rfl, claim_C4.2.1 "#0066CC" "#F5F5F5" rfl rfl, claim_C4.2.2 "#0066CC" rfl⟩

/-! ### Claim C5 -/

/-- C5: calculate_luminance computes exactly the luminance the
specification requires (normalize, piecewise gamma with breakpoint
0.03928 and exponent 2.4, fixed weighted sum), and takes the value 1 on
white and 0 on black. -/
theorem claim_C5 :
    (∀ rgb : ℤ × ℤ × ℤ, calculate_luminance rgb = relative_luminance_spec rgb) ∧
    calculate_luminance (255, 255, 255) = 1 ∧ calculate_luminance (0, 0, 0) = 0 := by
  refine ⟨?_, lum_white, lum_black⟩
  intro rgb
  simp only [calculate_luminance, relative_luminance_spec, wcag_gamma_spec]
  norm_num

/-! ### Claim C6 -/

/-- C6: evaluate_wcag returns exactly the four independent threshold
flags (3.0 for aa large, 4.5 for aa normal and aaa large, 7.0 for aaa
normal), with the stated behavior at the boundary ratios. -/
theorem claim_C6 :
    (∀ ratio : ℝ,
      ((evaluate_wcag ratio).passes_aa_large = true ↔ 3.0 ≤ ratio) ∧
      ((evaluate_wcag ratio).passes_aa_normal = true ↔ 4.5 ≤ ratio) ∧
      ((evaluate_wcag ratio).passes_aaa_large = true ↔ 4.5 ≤ ratio) ∧
      ((evaluate_wcag ratio).passes_aaa_normal = true ↔ 7.0 ≤ ratio)) ∧
    (evaluate_wcag 4.5).passes_aa_normal = true ∧
    (evaluate_wcag 4.49).passes_aa_normal = false ∧
    (evaluate_wcag 7.0).passes_aaa_normal = true := by
  refine ⟨fun ratio => ?_, ?_, ?_, ?_⟩
  · simp [evaluate_wcag, decide_eq_true_eq]
  · simp [evaluate_wcag, decide_eq_true_eq]
  · simp only [evaluate_wcag, decide_eq_false_iff_not]
    norm_num
  · simp [evaluate_wcag, decide_eq_true_eq]

/-! ### Claim C7 -/

/-- C7: for valid six-digit colors the contrast ratio is symmetric,
equals exactly 1 on identical colors, and is always at least 1. -/
theorem claim_C7 (A B : String) (hA : validSixHex A = true) (hB : validSixHex B = true) :
    calculate_contrast_ratio A B = calculate_contrast_ratio B A ∧
    calculate_contrast_ratio A A = .ok 1 ∧
    (∃ r, calculate_contrast_ratio A B = .ok r ∧ 1 ≤ r) := by
  obtain ⟨rA, gA, bA, heA, hbA⟩ := hex_to_rgb_of_valid hA
  obtain ⟨rB, gB, bB, heB, hbB⟩ := hex_to_rgb_of_valid hB
  refine ⟨?_, ?_, ?_⟩
  · rw [contrast_of_parses heA heB, contrast_of_parses heB heA]
    rw [max_comm, min_comm]
  · rw [contrast_of_parses heA heA]
    have hl := (luminance_bounds hbA.1 hbA.2.1 hbA.2.2.1 hbA.2.2.2.1
      hbA.2.2.2.2.1 hbA.2.2.2.2.2).1
    have : calculate_luminance (rA, gA, bA) + 0.05 ≠ 0 := by linarith
    simp only [max_self, min_self]
    rw [div_self this]
  · obtain ⟨r, hr, h1, -⟩ := contrast_ok_of_valid hA hB
    exact ⟨r, hr, h1⟩

/-- C7 witness: symmetry, the self ratio 1 and the lower bound
instantiated on the valid colors 333333 and FFFFFF. -/
theorem claim_C7_witness :
    (validSixHex "#333333" = true) ∧ (validSixHex "#FFFFFF" = true) ∧
    (calculate_contrast_ratio "#333333" "#FFFFFF" =
      calculate_contrast_ratio "#FFFFFF" "#333333" ∧
    calculate_contrast_ratio "#333333" "#333333" = .ok 1 ∧
    (∃ r, calculate_contrast_ratio "#333333" "#FFFFFF" = .ok r ∧ 1 ≤ r)) :=
  ⟨rfl, rfl, claim_C7 "#333333" "#FFFFFF" rfl rfl⟩

/-! ### Helper lemmas: batch processing -/

lemma countP_not_eq (p : PairResult → Bool) (l : List PairResult) :
    l.countP (fun a => !p a) = l.length - l.countP p := by
  have h := List.length_eq_countP_add_countP (l := l) (p := p)
  have he : l.countP (fun a => !p a) = l.countP (fun a => decide ¬(p a = true)) := by
    apply List.countP_congr
    intro a _
    cases p a <;> simp
  omega

lemma parseOk_true {s : String} (h : parseOk s = true) : ∃ v, hex_to_rgb s = .ok v := by
  rcases except_unit_cases (hex_to_rgb s) with he | ⟨v, hv⟩
  · rw [parseOk, he] at h; exact Bool.noConfusion h
  · exact ⟨v, hv⟩

lemma parseOk_false {s : String} (h : parseOk s = false) : hex_to_rgb s = .error () := by
  rcases except_unit_cases (hex_to_rgb s) with he | ⟨v, hv⟩
  · exact he
  · rw [parseOk, hv] at h; exact Bool.noConfusion h

lemma contrast_ok_of_pairOk {p : ColorPair} (h : pairOk p = true) :
    ∃ r, calculate_contrast_ratio p.foreground p.background = .ok r := by
  rw [pairOk, Bool.and_eq_true] at h
  obtain ⟨v1, h1⟩ := parseOk_true h.1
  obtain ⟨v2, h2⟩ := parseOk_true h.2
  exact ⟨_, contrast_of_parses h1 h2⟩

lemma contrast_err_of_not_pairOk {p : ColorPair} (h : pairOk p = false) :
    calculate_contrast_ratio p.foreground p.background = .error () := by
  rw [pairOk, Bool.and_eq_false_iff] at h
  rcases h with h | h
  · exact contrast_error_left (parseOk_false h)
  · rcases except_unit_cases (hex_to_rgb p.foreground) with he | ⟨v, hv⟩
    · exact contrast_error_left he
    · exact contrast_error_right hv (parseOk_false h)

lemma processPairs_error {conv : OklchConverter} {pairs : List ColorPair}
    (h : pairs.any (fun p => !pairOk p) = true) :
    processPairs conv pairs = .error () := by
  induction pairs with
  | nil => simp at h
  | cons p rest ih =>
    rw [List.any_cons] at h
    cases hp : pairOk p with
    | false =>
      simp only [processPairs]
      rw [contrast_err_of_not_pairOk hp]
      rfl
    | true =>
      have hrest : rest.any (fun q => !pairOk q) = true := by
        rw [hp] at h; simpa using h
      obtain ⟨r, hr⟩ := contrast_ok_of_pairOk hp
      simp only [processPairs]
      rw [hr]
      simp only [bind_ok]
      rw [ih hrest]
      rfl

/-- The pointwise relation between an input pair and its result record,
as produced by the loop of check_color_accessibility. -/
def resultMatches (conv : OklchConverter) (p : ColorPair) (r : PairResult) : Prop :=
  ∃ raw, calculate_contrast_ratio p.foreground p.background = .ok raw ∧
    r.text_sample = p.element ∧ r.foreground = p.foreground ∧
    r.background = p.background ∧ r.ratio = round2 raw ∧
    r.passes_aa_normal = (evaluate_wcag raw).passes_aa_normal ∧
    r.passes_aa_large = (evaluate_wcag raw).passes_aa_large ∧
    r.passes_aaa_normal = (evaluate_wcag raw).passes_aaa_normal ∧
    r.passes_aaa_large = (evaluate_wcag raw).passes_aaa_large ∧
    r.suggestions = generate_oklch_suggestions conv p.foreground p.background raw

lemma processPairs_ok (conv : OklchConverter) {pairs : List ColorPair}
    (h : pairsOk pairs = true) :
    ∃ results, processPairs conv pairs = .ok results ∧
      List.Forall₂ (resultMatches conv) pairs results := by
  induction pairs with
  | nil => exact ⟨[], rfl, List.Forall₂.nil⟩
  | cons p rest ih =>
    rw [pairsOk, List.all_cons, Bool.and_eq_true] at h
    obtain ⟨results, hres, hfa⟩ := ih h.2
    obtain ⟨r, hr⟩ := contrast_ok_of_pairOk h.1
    refine ⟨{ text_sample := p.element
              foreground := p.foreground
              background := p.background
              ratio := round2 r
              passes_aa_normal := (evaluate_wcag r).passes_aa_normal
              passes_aa_large := (evaluate_wcag r).passes_aa_large
              passes_aaa_normal := (evaluate_wcag r).passes_aaa_normal
              passes_aaa_large := (evaluate_wcag r).passes_aaa_large
              suggestions := generate_oklch_suggestions conv p.foreground p.background r }
        :: results, ?_,
      List.Forall₂.cons ⟨r, hr, rfl, rfl, rfl, rfl, rfl, rfl, rfl, rfl, rfl⟩ hfa⟩
    simp only [processPairs]
    rw [hr]
    simp only [bind_ok]
    rw [hres]
    rfl

lemma check_ok (conv : OklchConverter) {pairs : List ColorPair}
    (h : pairsOk pairs = true) :
    ∃ out, check_color_accessibility conv pairs = .ok out ∧
      out.total_pairs = pairs.length ∧
      out.passed_pairs = out.color_pairs.countP (fun r => r.passes_aa_normal) ∧
      out.failed_pairs = out.color_pairs.countP (fun r => !r.passes_aa_normal) ∧
      List.Forall₂ (resultMatches conv) pairs out.color_pairs := by
  obtain ⟨results, hres, hfa⟩ := processPairs_ok conv h
  refine ⟨{ total_pairs := pairs.length
            passed_pairs := results.countP (fun r => r.passes_aa_normal)
            failed_pairs := results.countP (fun r => !r.passes_aa_normal)
            color_pairs := results }, ?_, rfl, rfl, rfl, hfa⟩
  simp only [check_color_accessibility]
  rw [hres]
  rfl

/-! ### Claim C1 -/

/-- C1 counterexample: a batch holding one valid pair and one malformed
pair evaluates to a single batch-level error; the valid sibling pair
receives no result, contradicting per-item isolation. -/
theorem claim_C1_cex :
    check_color_accessibility constConv
      [{ foreground := "#333333", background := "#FFFFFF", element := "Title" },
       { foreground := "not-a-color", background := "#FFFFFF", element := "Nav" }]
      = .error () := by
  have h : [({ foreground := "#333333", background := "#FFFFFF", element := "Title" } : ColorPair),
      { foreground := "not-a-color", background := "#FFFFFF", element := "Nav" }].any
        (fun p => !pairOk p) = true := by rfl
  simp only [check_color_accessibility]
  rw [processPairs_error h]
  rfl

/-- C1 amended: a malformed color in any pair of the batch aborts the
whole evaluation: check_color_accessibility propagates the parse
failure as one batch-level error, so no pair of the batch receives a
result. -/
theorem claim_C1 (conv : OklchConverter) (pairs : List ColorPair)
    (h : pairs.any (fun p => !pairOk p) = true) :
    check_color_accessibility conv pairs = .error () := by
  simp only [check_color_accessibility]
  rw [processPairs_error h]
  rfl

/-- C1 witness: the amended claim instantiated on a batch whose second
pair has the malformed background zzz. -/
theorem claim_C1_witness :
    ([({ foreground := "#0066CC", background := "#F5F5F5", element := "Link" } : ColorPair),
      { foreground := "#333333", background := "zzz", element := "Body" }].any
        (fun p => !pairOk p) = true) ∧
    check_color_accessibility constConv
      [{ foreground := "#0066CC", background := "#F5F5F5", element := "Link" },
       { foreground := "#333333", background := "zzz", element := "Body" }] = .error () :=
  ⟨rfl, claim_C1 constConv _ rfl⟩

/-! ### Claim C8 -/

/-- C8: in every remediation probe the adjusted lightness stays inside
[0,1]: for any pair whose colors convert to OKLCH points with lightness
in [0,1], all four probe adjustments (darken or lighten the background
or foreground lightness by 0.15) give a lightness in [0,1]. -/
theorem claim_C8 (conv : OklchConverter) (fg_hex bg_hex : String) (fgOk bgOk : Oklch)
    (_hfg : conv.toOklch fg_hex = some fgOk) (_hbg : conv.toOklch bg_hex = some bgOk)
    (hf0 : 0 ≤ fgOk.lightness) (hf1 : fgOk.lightness ≤ 1)
    (hb0 : 0 ≤ bgOk.lightness) (hb1 : bgOk.lightness ≤ 1) :
    (0 ≤ darken_lightness bgOk.lightness ∧ darken_lightness bgOk.lightness ≤ 1) ∧
    (0 ≤ lighten_lightness bgOk.lightness ∧ lighten_lightness bgOk.lightness ≤ 1) ∧
    (0 ≤ darken_lightness fgOk.lightness ∧ darken_lightness fgOk.lightness ≤ 1) ∧
    (0 ≤ lighten_lightness fgOk.lightness ∧ lighten_lightness fgOk.lightness ≤ 1) := by
  unfold darken_lightness lighten_lightness
  refine ⟨⟨le_max_left 0 _, max_le (by norm_num) (by linarith)⟩,
    ⟨le_min (by norm_num) (by linarith), min_le_left 1 _⟩,
    ⟨le_max_left 0 _, max_le (by norm_num) (by linarith)⟩,
    ⟨le_min (by norm_num) (by linarith), min_le_left 1 _⟩⟩

/-- C8 witness: the clamp bounds instantiated on the constant converter
and a concrete pair. -/
theorem claim_C8_witness :
    (constConv.toOklch "#000000" = some { lightness := 0.5, chroma := 0, hue := 0 }) ∧
    ((0 ≤ darken_lightness (0.5 : ℝ) ∧ darken_lightness (0.5 : ℝ) ≤ 1) ∧
     (0 ≤ lighten_lightness (0.5 : ℝ) ∧ lighten_lightness (0.5 : ℝ) ≤ 1) ∧
     (0 ≤ darken_lightness (0.5 : ℝ) ∧ darken_lightness (0.5 : ℝ) ≤ 1) ∧
     (0 ≤ lighten_lightness (0.5 : ℝ) ∧ lighten_lightness (0.5 : ℝ) ≤ 1)) :=
  ⟨rfl, claim_C8 constConv "#000000" "#FFFFFF"
    { lightness := 0.5, chroma := 0, hue := 0 } { lightness := 0.5, chroma := 0, hue := 0 }
    rfl rfl (by norm_num) (by norm_num) (by norm_num) (by norm_num)⟩

/-! ### Claim C9 -/

/-- C9: on a batch of valid pairs the output is an ordered sequence of
results matching the inputs position by position, total equals the
number of input pairs, passed counts exactly the results with the aa
normal flag true, and failed equals total minus passed. -/
theorem claim_C9 (conv : OklchConverter) (pairs : List ColorPair)
    (h : pairsOk pairs = true) :
    ∃ out, check_color_accessibility conv pairs = .ok out ∧
      out.total_pairs = pairs.length ∧
      out.color_pairs.length = pairs.length ∧
      List.Forall₂ (fun (p : ColorPair) (r : PairResult) =>
        r.text_sample = p.element ∧ r.foreground = p.foreground ∧
          r.background = p.background) pairs out.color_pairs ∧
      out.passed_pairs = out.color_pairs.countP (fun r => r.passes_aa_normal) ∧
      out.failed_pairs = out.total_pairs - out.passed_pairs := by
  obtain ⟨out, hout, htot, hpass, hfail, hfa⟩ := check_ok conv h
  refine ⟨out, hout, htot, (List.Forall₂.length_eq hfa).symm, ?_, hpass, ?_⟩
  · exact hfa.imp fun _ _ hm => by
      obtain ⟨raw, -, h1, h2, h3, -⟩ := hm
      exact ⟨h1, h2, h3⟩
  · rw [hfail, countP_not_eq, hpass, htot, List.Forall₂.length_eq hfa]

/-- C9 witness: the batch contract instantiated on a concrete two-pair
batch of valid colors. -/
theorem claim_C9_witness :
    (pairsOk [({ foreground := "#333333", background := "#FFFFFF", element := "Title" } : ColorPair),
      { foreground := "#0066CC", background := "#F5F5F5", element := "Link" }] = true) ∧
    (∃ out, check_color_accessibility constConv
      [{ foreground := "#333333", background := "#FFFFFF", element := "Title" },
       { foreground := "#0066CC", background := "#F5F5F5", element := "Link" }] = .ok out ∧
      out.total_pairs = 2 ∧
      out.color_pairs.length = 2 ∧
      List.Forall₂ (fun (p : ColorPair) (r : PairResult) =>
        r.text_sample = p.element ∧ r.foreground = p.foreground ∧
          r.background = p.background)
        [{ foreground := "#333333", background := "#FFFFFF", element := "Title" },
         { foreground := "#0066CC", background := "#F5F5F5", element := "Link" }]
        out.color_pairs ∧
      out.passed_pairs = out.color_pairs.countP (fun r => r.passes_aa_normal) ∧
      out.failed_pairs = out.total_pairs - out.passed_pairs) :=
  ⟨rfl, claim_C9 constConv _ rfl⟩

/-! ### Helper lemmas: the stable descending sort -/

lemma mem_insertDesc {x y : Suggestion} {l : List Suggestion} :
    y ∈ insertDesc x l ↔ y = x ∨ y ∈ l := by
  induction l with
  | nil => simp [insertDesc]
  | cons z zs ih =>
    simp only [insertDesc]
    split_ifs with h
    · simp [List.mem_cons]
    · simp [List.mem_cons, ih]
      tauto

lemma mem_sortSuggestions {y : Suggestion} {l : List Suggestion} :
    y ∈ sortSuggestions l ↔ y ∈ l := by
  induction l with
  | nil => simp [sortSuggestions]
  | cons x xs ih => simp [sortSuggestions, mem_insertDesc, ih]

/-- The invariant established by the stable descending sort: later
elements have smaller or equal keys, and on equal keys the original
probe order is preserved. -/
def suggR (a b : Suggestion) : Prop :=
  b.new_contrast_ratio ≤ a.new_contrast_ratio ∧
    (a.new_contrast_ratio = b.new_contrast_ratio → probeIdx a < probeIdx b)

lemma insertDesc_pairwise {x : Suggestion} {l : List Suggestion}
    (hl : l.Pairwise suggR) (hx : ∀ y ∈ l, probeIdx x < probeIdx y) :
    (insertDesc x l).Pairwise suggR := by
  induction l with
  | nil => simp [insertDesc]
  | cons z zs ih =>
    rw [List.pairwise_cons] at hl
    simp only [insertDesc]
    split_ifs with h
    · rw [List.pairwise_cons]
      constructor
      · intro y hy
        rcases List.mem_cons.mp hy with rfl | hy'
        · exact ⟨h, fun _ => hx y (List.mem_cons_self _ _)⟩
        · exact ⟨le_trans (hl.1 y hy').1 h,
            fun _ => hx y (List.mem_cons_of_mem _ hy')⟩
      · exact List.pairwise_cons.mpr hl
    · push_neg at h
      rw [List.pairwise_cons]
      constructor
      · intro y hy
        rcases mem_insertDesc.mp hy with rfl | hy'
        · refine ⟨le_of_lt h, fun heq => ?_⟩
          rw [heq] at h
          exact absurd h (lt_irrefl _)
        · exact hl.1 y hy'
      · exact ih hl.2 (fun y hy => hx y (List.mem_cons_of_mem _ hy))

lemma sortSuggestions_pairwise {l : List Suggestion}
    (hl : l.Pairwise (fun a b => probeIdx a < probeIdx b)) :
    (sortSuggestions l).Pairwise suggR := by
  induction l with
  | nil => simp [sortSuggestions]
  | cons x xs ih =>
    rw [List.pairwise_cons] at hl
    exact insertDesc_pairwise (ih hl.2) (fun y hy => hl.1 y (mem_sortSuggestions.mp hy))

/-! ### Helper lemmas: shape of the remediation search -/

lemma policyB_probes_cases (conv : OklchConverter) (fg_hex bg_hex : String) :
    policyB_probes conv fg_hex bg_hex = .error () ∨
    ∃ probes, policyB_probes conv fg_hex bg_hex = .ok probes ∧
      (probes.map (fun c => c.2)).Pairwise (fun a b => probeIdx a < probeIdx b) ∧
      ∀ c ∈ probes, calculate_contrast_ratio c.2.preview_hex_fg c.2.preview_hex_bg = .ok c.1 ∧
        c.2.new_contrast_ratio = round2 c.1 := by
  unfold policyB_probes
  cases ho1 : conv.toOklch fg_hex with
  | none => left; rfl
  | some fgOk =>
    cases ho2 : conv.toOklch bg_hex with
    | none => left; rfl
    | some bgOk =>
      simp only [ofOption, bind_ok]
      rcases except_unit_cases (calculate_contrast_ratio fg_hex
        (conv.fromOklch { bgOk with lightness := darken_lightness bgOk.lightness }))
          with h1 | ⟨r1, h1⟩
      · rw [h1]; left; rfl
      rw [h1]; simp only [bind_ok]
      rcases except_unit_cases (calculate_contrast_ratio fg_hex
        (conv.fromOklch { bgOk with lightness := lighten_lightness bgOk.lightness }))
          with h2 | ⟨r2, h2⟩
      · rw [h2]; left; rfl
      rw [h2]; simp only [bind_ok]
      rcases except_unit_cases (calculate_contrast_ratio
        (conv.fromOklch { fgOk with lightness := darken_lightness fgOk.lightness }) bg_hex)
          with h3 | ⟨r3, h3⟩
      · rw [h3]; left; rfl
      rw [h3]; simp only [bind_ok]
      rcases except_unit_cases (calculate_contrast_ratio
        (conv.fromOklch { fgOk with lightness := lighten_lightness fgOk.lightness }) bg_hex)
          with h4 | ⟨r4, h4⟩
      · rw [h4]; left; rfl
      rw [h4]; simp only [bind_ok]
      right
      refine ⟨_, rfl, ?_, ?_⟩
      · simp only [List.map_cons, List.map_nil]
        simp [List.pairwise_cons, probeIdx]
      · intro c hc
        simp only [List.mem_cons, List.not_mem_nil, or_false] at hc
        rcases hc with rfl | rfl | rfl | rfl
        · exact ⟨h1, rfl⟩
        · exact ⟨h2, rfl⟩
        · exact ⟨h3, rfl⟩
        · exact ⟨h4, rfl⟩

lemma suggestionBody_eq (conv : OklchConverter) (fg_hex bg_hex : String) (cr : ℝ) :
    suggestionBody conv fg_hex bg_hex cr =
      (policyB_probes conv fg_hex bg_hex).map (fun probes =>
        (sortSuggestions ((probes.filter (fun c => decide (cr < c.1))).map
          (fun c => c.2))).take 2) := by
  unfold suggestionBody policyB_probes
  cases ho1 : conv.toOklch fg_hex with
  | none => rfl
  | some fgOk =>
    cases ho2 : conv.toOklch bg_hex with
    | none => rfl
    | some bgOk =>
      simp only [ofOption, bind_ok]
      rcases except_unit_cases (calculate_contrast_ratio fg_hex
        (conv.fromOklch { bgOk with lightness := darken_lightness bgOk.lightness }))
          with h1 | ⟨r1, h1⟩
      · rw [h1]; rfl
      rw [h1]; simp only [bind_ok]
      rcases except_unit_cases (calculate_contrast_ratio fg_hex
        (conv.fromOklch { bgOk with lightness := lighten_lightness bgOk.lightness }))
          with h2 | ⟨r2, h2⟩
      · rw [h2]; rfl
      rw [h2]; simp only [bind_ok]
      rcases except_unit_cases (calculate_contrast_ratio
        (conv.fromOklch { fgOk with lightness := darken_lightness fgOk.lightness }) bg_hex)
          with h3 | ⟨r3, h3⟩
      · rw [h3]; rfl
      rw [h3]; simp only [bind_ok]
      rcases except_unit_cases (calculate_contrast_ratio
        (conv.fromOklch { fgOk with lightness := lighten_lightness fgOk.lightness }) bg_hex)
          with h4 | ⟨r4, h4⟩
      · rw [h4]; rfl
      rw [h4]; simp only [bind_ok]
      simp only [Except.map]
      congr 1
      congr 1
      simp only [List.filter_cons, List.filter_nil, decide_eq_true_eq]
      split_ifs <;> simp

lemma generate_eq_policyB (conv : OklchConverter) (fg_hex bg_hex : String) (cr : ℝ) :
    generate_oklch_suggestions conv fg_hex bg_hex cr = policyB_spec conv fg_hex bg_hex cr := by
  unfold generate_oklch_suggestions policyB_spec
  by_cases hcr : 4.5 ≤ cr
  · rw [if_pos hcr, if_pos hcr]
  · rw [if_neg hcr, if_neg hcr, suggestionBody_eq]
    cases hp : policyB_probes conv fg_hex bg_hex with
    | error e => cases e; rfl
    | ok probes => rfl

/-! ### Claim C3 -/

/-- C3: the remediation search implements Policy B: a pair whose ratio
already reaches 4.5 gets no suggestions, and a failing pair is handled
by probing exactly the four fixed 0.15 lightness adjustments, keeping a
candidate only on strict improvement of the ratio, ranking survivors by
resulting ratio descending, and returning at most the top two —
generate_oklch_suggestions coincides with the Policy B search written
from the specification's words. -/
theorem claim_C3 (conv : OklchConverter) (fg_hex bg_hex : String) (current_ratio : ℝ) :
    generate_oklch_suggestions conv fg_hex bg_hex current_ratio =
      policyB_spec conv fg_hex bg_hex current_ratio ∧
    (4.5 ≤ current_ratio →
      generate_oklch_suggestions conv fg_hex bg_hex current_ratio = []) := by
  refine ⟨generate_eq_policyB conv fg_hex bg_hex current_ratio, fun h => ?_⟩
  unfold generate_oklch_suggestions
  rw [if_pos h]

/-- C3 witness: the Policy B equivalence and the passing-pair clause
instantiated on a concrete passing pair (ratio 12.63). -/
theorem claim_C3_witness :
    generate_oklch_suggestions constConv "#333333" "#FFFFFF" 12.63 =
      policyB_spec constConv "#333333" "#FFFFFF" 12.63 ∧
    ((4.5 : ℝ) ≤ 12.63 ∧
      generate_oklch_suggestions constConv "#333333" "#FFFFFF" 12.63 = []) :=
  ⟨(claim_C3 constConv "#333333" "#FFFFFF" 12.63).1, by norm_num,
    (claim_C3 constConv "#333333" "#FFFFFF" 12.63).2 (by norm_num)⟩

/-! ### Claim C10 -/

/-- A result record reports the rounded ratio of its input pair. -/
def ratioRounded (p : ColorPair) (r : PairResult) : Prop :=
  ∃ raw, calculate_contrast_ratio p.foreground p.background = .ok raw ∧
    r.ratio = round2 raw

/-- C10: ratios reported per pair and per suggestion are the
two-decimal roundings of the computed ratios, suggestions are ranked on
the rounded values, and the ranking is stable: two emitted suggestions
with equal rounded ratios appear in the fixed probe order darken
background, lighten background, darken foreground, lighten foreground. -/
theorem claim_C10 (conv : OklchConverter) (fg_hex bg_hex : String) (current_ratio : ℝ)
    (pairs : List ColorPair) (h : pairsOk pairs = true) :
    (∃ out, check_color_accessibility conv pairs = .ok out ∧
      List.Forall₂ ratioRounded pairs out.color_pairs) ∧
    (∀ s ∈ generate_oklch_suggestions conv fg_hex bg_hex current_ratio,
      ∃ raw, calculate_contrast_ratio s.preview_hex_fg s.preview_hex_bg = .ok raw ∧
        s.new_contrast_ratio = round2 raw ∧ current_ratio < raw) ∧
    (∀ s1 s2, generate_oklch_suggestions conv fg_hex bg_hex current_ratio = [s1, s2] →
      s2.new_contrast_ratio ≤ s1.new_contrast_ratio ∧
      (s1.new_contrast_ratio = s2.new_contrast_ratio → probeIdx s1 < probeIdx s2)) := by
  refine ⟨?_, ?_⟩
  · obtain ⟨out, hout, -, -, -, hfa⟩ := check_ok conv h
    refine ⟨out, hout, hfa.imp ?_⟩
    intro p r hm
    obtain ⟨raw, hcon, -, -, -, hr, -⟩ := hm
    exact ⟨raw, hcon, hr⟩
  by_cases hcr : 4.5 ≤ current_ratio
  · have hnil : generate_oklch_suggestions conv fg_hex bg_hex current_ratio = [] := by
      unfold generate_oklch_suggestions
      rw [if_pos hcr]
    constructor
    · intro s hs
      rw [hnil] at hs
      exact absurd hs (List.not_mem_nil s)
    · intro s1 s2 heq
      rw [hnil] at heq
      exact List.noConfusion heq
  rcases policyB_probes_cases conv fg_hex bg_hex with hp | ⟨probes, hp, hpw, hel⟩
  · have hnil : generate_oklch_suggestions conv fg_hex bg_hex current_ratio = [] := by
      rw [generate_eq_policyB]
      unfold policyB_spec
      rw [if_neg hcr, hp]
    constructor
    · intro s hs
      rw [hnil] at hs
      exact absurd hs (List.not_mem_nil s)
    · intro s1 s2 heq
      rw [hnil] at heq
      exact List.noConfusion heq
  · have hform : generate_oklch_suggestions conv fg_hex bg_hex current_ratio =
        (sortSuggestions ((probes.filter (fun c => decide (current_ratio < c.1))).map
          (fun c => c.2))).take 2 := by
      rw [generate_eq_policyB]
      unfold policyB_spec
      rw [if_neg hcr, hp]
    constructor
    · intro s hs
      rw [hform] at hs
      have hs2 := List.take_subset _ _ hs
      rw [mem_sortSuggestions] at hs2
      obtain ⟨c, hc, rfl⟩ := List.mem_map.mp hs2
      have hcf := List.mem_filter.mp hc
      obtain ⟨hcon, hround⟩ := hel c hcf.1
      exact ⟨c.1, hcon, hround, of_decide_eq_true hcf.2⟩
    · intro s1 s2 heq
      have hPW2 : (sortSuggestions ((probes.filter
          (fun c => decide (current_ratio < c.1))).map (fun c => c.2))).Pairwise suggR := by
        apply sortSuggestions_pairwise
        exact hpw.sublist ((List.filter_sublist probes).map (fun c => c.2))
      have hPW3 := hPW2.sublist (List.take_sublist 2 _)
      rw [← hform, heq, List.pairwise_cons] at hPW3
      exact hPW3.1 s2 (List.mem_cons_self _ _)

/-- A concrete valid color pair used to instantiate batch theorems. -/
def bodyPair : ColorPair :=
  { foreground := "#333333", background := "#FFFFFF", element := "Body" }

/-- C10 witness: the rounding and stable ranking contract instantiated
on the constant converter, a concrete failing ratio and a concrete
one-pair batch. -/
theorem claim_C10_witness :
    (pairsOk [bodyPair] = true) ∧
    ((∃ out, check_color_accessibility constConv [bodyPair] = .ok out ∧
      List.Forall₂ ratioRounded [bodyPair] out.color_pairs) ∧
    (∀ s ∈ generate_oklch_suggestions constConv "#000000" "#FFFFFF" 1.0,
      ∃ raw, calculate_contrast_ratio s.preview_hex_fg s.preview_hex_bg = .ok raw ∧
        s.new_contrast_ratio = round2 raw ∧ (1.0 : ℝ) < raw) ∧
    (∀ s1 s2, generate_oklch_suggestions constConv "#000000" "#FFFFFF" 1.0 = [s1, s2] →
      s2.new_contrast_ratio ≤ s1.new_contrast_ratio ∧
      (s1.new_contrast_ratio = s2.new_contrast_ratio → probeIdx s1 < probeIdx s2))) :=
  ⟨rfl, claim_C10 constConv "#000000" "#FFFFFF" 1.0 [bodyPair] rfl⟩

end ColorChecker
